import Mathlib

/-!
Shallow embedding of the clinic application (`src/app.py`): two tables
(`Paciente`, `Cita`), the POST handlers `registrar`, `citas` (scheduling with
the 20-appointment retention trim), `modificar_paciente`, `eliminar_paciente`,
and the date / datetime parsing done with `datetime.strptime`.
The database session is modelled as an explicit `DB` value; each handler is a
pure function from the store and the raw form fields to a tagged outcome and
the updated store.
-/

namespace Clinica

/-- The failure taxonomy of the spec (section 7). -/
inductive AppError where
  | invalidDateFormat
  | invalidDateTimeFormat
  | duplicateIdentifier
  | notFound
  | patientNotFound

deriving instance DecidableEq for AppError

/-- A calendar date (`datetime.date`): year, month, day. -/
structure DateT where
  year : Nat
  month : Nat
  day : Nat

deriving instance DecidableEq for DateT

/-- A calendar date plus time of day (`datetime.datetime`, minute precision). -/
structure DateTimeT where
  year : Nat
  month : Nat
  day : Nat
  hour : Nat
  minute : Nat

deriving instance DecidableEq for DateTimeT

/-- A numeric key that is strictly monotone in chronological order for valid
datetimes (month ≤ 12, day ≤ 31, hour < 24, minute < 60); comparing keys is
comparing timestamps, as SQLite does for `ORDER BY fecha_cita`. -/
def DateTimeT.key (t : DateTimeT) : Nat :=
  ((t.year * 500 + t.month * 40 + t.day) * 24 + t.hour) * 60 + t.minute

/-- Numeric value of an ASCII digit character. -/
def digitVal (c : Char) : Nat := c.toNat - 48

/-- Is `c` an ASCII digit? -/
def isDig (c : Char) : Bool := decide (48 ≤ c.toNat) && decide (c.toNat ≤ 57)

/-- Parse a one-or-two digit number in `[lo, hi]` at the front of the input,
the way the `strptime` regexes for `%m`, `%d`, `%H`, `%M` do: a two-digit
match is taken when its value is in range, otherwise a single digit.
(When two digits are present but out of range, regex backtracking to the
one-digit alternative always fails on the following literal, because the
second character is a digit; so rejecting outright is equivalent.) -/
def parse2or1 (lo hi : Nat) : List Char → Option (Nat × List Char)
  | [] => none
  | [c] =>
    if isDig c ∧ lo ≤ digitVal c ∧ digitVal c ≤ hi then some (digitVal c, []) else none
  | c1 :: c2 :: rest =>
    if isDig c1 ∧ isDig c2 then
      if lo ≤ 10 * digitVal c1 + digitVal c2 ∧ 10 * digitVal c1 + digitVal c2 ≤ hi then
        some (10 * digitVal c1 + digitVal c2, rest)
      else none
    else
      if isDig c1 ∧ lo ≤ digitVal c1 ∧ digitVal c1 ≤ hi then some (digitVal c1, c2 :: rest)
      else none

/-- Length of each month in the proleptic Gregorian calendar used by
`datetime.date` / `datetime.datetime`. -/
def daysInMonth (y m : Nat) : Nat :=
  if m = 2 then
    if y % 4 = 0 ∧ (y % 100 ≠ 0 ∨ y % 400 = 0) then 29 else 28
  else if m = 4 ∨ m = 6 ∨ m = 9 ∨ m = 11 then 30 else 31

/-- `datetime.strptime(s, '%Y-%m-%d').date()` as a total function: four digit
year, dash, 1–2 digit month in 1..12, dash, 1–2 digit day, end of input; the
`datetime` constructor then demands year ≥ 1 and day ≤ length of the month. -/
def parseDate (s : List Char) : Option DateT :=
  match s with
  | y1 :: y2 :: y3 :: y4 :: s1 :: rest =>
    if isDig y1 ∧ isDig y2 ∧ isDig y3 ∧ isDig y4 ∧ s1 = '-' then
      match parse2or1 1 12 rest with
      | some (mo, s2 :: rest2) =>
        if s2 = '-' then
          match parse2or1 1 31 rest2 with
          | some (d, []) =>
            let y := 1000 * digitVal y1 + 100 * digitVal y2 + 10 * digitVal y3 + digitVal y4
            if 1 ≤ y ∧ d ≤ daysInMonth y mo then some ⟨y, mo, d⟩ else none
          | _ => none
        else none
      | _ => none
    else none
  | _ => none

/-- `datetime.strptime(s, '%Y-%m-%dT%H:%M')` as a total function (the literal
`T` matches case-insensitively, as `strptime` compiles literals with
`re.IGNORECASE`). -/
def parseDateTime (s : List Char) : Option DateTimeT :=
  match s with
  | y1 :: y2 :: y3 :: y4 :: s1 :: rest =>
    if isDig y1 ∧ isDig y2 ∧ isDig y3 ∧ isDig y4 ∧ s1 = '-' then
      match parse2or1 1 12 rest with
      | some (mo, s2 :: rest2) =>
        if s2 = '-' then
          match parse2or1 1 31 rest2 with
          | some (d, t :: rest3) =>
            if t = 'T' ∨ t = 't' then
              match parse2or1 0 23 rest3 with
              | some (hh, s3 :: rest4) =>
                if s3 = ':' then
                  match parse2or1 0 59 rest4 with
                  | some (mi, []) =>
                    let y := 1000 * digitVal y1 + 100 * digitVal y2 +
                      10 * digitVal y3 + digitVal y4
                    if 1 ≤ y ∧ d ≤ daysInMonth y mo then some ⟨y, mo, d, hh, mi⟩ else none
                  | _ => none
                else none
              | _ => none
            else none
          | _ => none
        else none
      | _ => none
    else none
  | _ => none

/-- Row of the `paciente` table. -/
structure Paciente where
  id : Nat
  nombre : String
  cedula : String
  fecha_nacimiento : DateT

deriving instance DecidableEq for Paciente

/-- Row of the `cita` table; `paciente_cedula` is the foreign key onto
`Paciente.cedula`. -/
structure Cita where
  id : Nat
  fecha_cita : DateTimeT
  motivo : String
  paciente_cedula : String

deriving instance DecidableEq for Cita

/-- The SQLite database: the two tables in insertion (rowid) order plus the
autoincrement counters for the surrogate primary keys. -/
structure DB where
  pacientes : List Paciente
  citas : List Cita
  nextPacienteId : Nat
  nextCitaId : Nat

deriving instance DecidableEq for DB

def emptyDB : DB := ⟨[], [], 1, 1⟩

/-- `Paciente.query.filter_by(cedula=ced).first()`. -/
def getPacienteByCedula (db : DB) (ced : String) : Option Paciente :=
  (db.pacientes.filter (fun p => p.cedula == ced)).head?

/-- The POST branch of `/registrar`: parse the birth date (format checked
first), then reject a duplicate cédula, else insert the new patient. -/
def registrar (db : DB) (nombre ced fechaStr : String) : Option AppError × DB :=
  match parseDate fechaStr.data with
  | none => (some .invalidDateFormat, db)
  | some fn =>
    match getPacienteByCedula db ced with
    | some _ => (some .duplicateIdentifier, db)
    | none =>
      (none,
        { db with
          pacientes := db.pacientes ++
            [{ id := db.nextPacienteId, nombre := nombre, cedula := ced,
               fecha_nacimiento := fn }],
          nextPacienteId := db.nextPacienteId + 1 })

/-- The comparison used by `Cita.query.order_by(Cita.fecha_cita.asc())`. -/
def citaLe (a b : Cita) : Prop := a.fecha_cita.key ≤ b.fecha_cita.key

instance : DecidableRel citaLe := fun a b => Nat.decLe _ _

instance : IsTotal Cita citaLe := ⟨fun a b => Nat.le_total _ _⟩

instance : IsTrans Cita citaLe := ⟨fun _ _ _ => Nat.le_trans⟩

/-- All appointments ordered by `fecha_cita` ascending (a stable sort of the
table rows; SQLite leaves the order of ties unspecified, stability by rowid is
the model's choice). -/
def sortAsc (l : List Cita) : List Cita := l.insertionSort citaLe

/-- The trimming block of the `citas` handler: fetch all appointments in
ascending `fecha_cita` order and, when more than 20 are stored, delete the
first `count - 20` of them; returns the new store and how many were deleted. -/
def enforceLimit (db : DB) : DB × Nat :=
  let todas := sortAsc db.citas
  if todas.length > 20 then
    let n := todas.length - 20
    let aEliminar := todas.take n
    ({ db with citas := db.citas.filter (fun c => !(aEliminar.any (fun t => t.id == c.id))) }, n)
  else (db, 0)

/-- Committing `Cita(paciente_cedula=ced, fecha_cita=fc, motivo=motivo)`. -/
def insertCitaDB (db : DB) (ced : String) (fc : DateTimeT) (motivo : String) : DB :=
  { db with
    citas := db.citas ++ [{ id := db.nextCitaId, fecha_cita := fc, motivo := motivo,
                            paciente_cedula := ced }],
    nextCitaId := db.nextCitaId + 1 }

/-- The POST branch of `/citas`: parse the datetime, require the patient to
exist, insert the appointment, then run the retention trim; returns the error
(if any), the number of trimmed appointments, and the updated store. -/
def agendarCita (db : DB) (ced fechaStr motivo : String) : Option AppError × Nat × DB :=
  match parseDateTime fechaStr.data with
  | none => (some .invalidDateTimeFormat, 0, db)
  | some fc =>
    match getPacienteByCedula db ced with
    | none => (some .patientNotFound, 0, db)
    | some _ =>
      let r := enforceLimit (insertCitaDB db ced fc motivo)
      (none, r.2, r.1)

/-- The POST branch of `/modificar_paciente/<cedula>`: look the patient up,
parse the new birth date, and if the cédula is being changed require the new
one to be free; on success rewrite the row in place. The appointments table is
never touched, so a cédula change does not follow into `Cita.paciente_cedula`. -/
def modificarPaciente (db : DB) (ced nombre nuevaCed fechaStr : String) :
    Option AppError × DB :=
  match getPacienteByCedula db ced with
  | none => (some .notFound, db)
  | some p =>
    match parseDate fechaStr.data with
    | none => (some .invalidDateFormat, db)
    | some fn =>
      if nuevaCed ≠ ced ∧ (getPacienteByCedula db nuevaCed).isSome then
        (some .duplicateIdentifier, db)
      else
        (none,
          { db with
            pacientes := db.pacientes.map (fun q =>
              if q.id == p.id then
                { q with nombre := nombre, cedula := nuevaCed, fecha_nacimiento := fn }
              else q) })

/-- `/eliminar_paciente/<cedula>`: on a hit, delete the patient row and (via
the `cascade="all, delete-orphan"` relationship, joined on the cédula) every
appointment whose `paciente_cedula` equals the patient's cédula, in one
commit. -/
def eliminarPaciente (db : DB) (ced : String) : Option AppError × DB :=
  match getPacienteByCedula db ced with
  | none => (some .notFound, db)
  | some p =>
    (none,
      { db with
        pacientes := db.pacientes.filter (fun q => !(q.id == p.id)),
        citas := db.citas.filter (fun c => !(c.paciente_cedula == p.cedula)) })

/-- Referential integrity of the store: every appointment's `paciente_cedula`
is the cédula of some stored patient (spec invariant I2). -/
def fkOk (db : DB) : Bool :=
  db.citas.all (fun c => db.pacientes.any (fun p => p.cedula == c.paciente_cedula))

/-- The ASCII character of a decimal digit (values above 9 clamp to '9';
only 0–9 are ever used). -/
def digitChar (k : Nat) : Char :=
  if k = 0 then '0' else if k = 1 then '1' else if k = 2 then '2' else if k = 3 then '3'
  else if k = 4 then '4' else if k = 5 then '5' else if k = 6 then '6' else if k = 7 then '7'
  else if k = 8 then '8' else '9'

/-- The text `YYYY-MM-DD` (zero padded) denoting the calendar date y-m-d:
the spec-side description of a well-formed birth-date input. -/
def formatDate (y m d : Nat) : String :=
  ⟨[digitChar (y / 1000), digitChar (y / 100 % 10), digitChar (y / 10 % 10), digitChar (y % 10),
    '-', digitChar (m / 10), digitChar (m % 10), '-', digitChar (d / 10), digitChar (d % 10)]⟩

/-- The appointments the retention step deletes when the store holds more than
20: the earliest `count - 20` in ascending `fecha_cita` order. -/
def trimmedCitas (db : DB) : List Cita :=
  (sortAsc db.citas).take (db.citas.length - 20)

/-- Spec P5 scenario: 25 scheduling dates, one day apart. -/
def scnDates : List String :=
  ["2024-01-01T09:00", "2024-01-02T09:00", "2024-01-03T09:00", "2024-01-04T09:00",
   "2024-01-05T09:00", "2024-01-06T09:00", "2024-01-07T09:00", "2024-01-08T09:00",
   "2024-01-09T09:00", "2024-01-10T09:00", "2024-01-11T09:00", "2024-01-12T09:00",
   "2024-01-13T09:00", "2024-01-14T09:00", "2024-01-15T09:00", "2024-01-16T09:00",
   "2024-01-17T09:00", "2024-01-18T09:00", "2024-01-19T09:00", "2024-01-20T09:00",
   "2024-01-21T09:00", "2024-01-22T09:00", "2024-01-23T09:00", "2024-01-24T09:00",
   "2024-01-25T09:00"]

/-- One step of the P5 scenario: schedule for "V123" and record whether every
step so far succeeded. -/
def scnStep (acc : DB × Bool) (s : String) : DB × Bool :=
  let r := agendarCita acc.1 "V123" s "Control"
  (r.2.2, acc.2 && r.1.isNone)

/-- The P5 scenario run: register "Ana"/"V123", then schedule the 25 dates. -/
def scnRun : DB × Bool :=
  scnDates.foldl scnStep ((registrar emptyDB "Ana" "V123" "1990-05-20").2, true)

/-- A store with one patient, used by C5's counterexample. -/
def dbAna : DB := (registrar emptyDB "Ana" "V123" "1990-05-20").2

/-- A store with one patient "V1" and one appointment referencing it, used by
C2's counterexample (cédula rename orphaning the appointment). -/
def dbRen : DB :=
  (agendarCita (registrar emptyDB "Ana" "V1" "1990-05-20").2 "V1" "2024-01-10T09:00"
    "Chequeo").2.2

/-- A store with two patients "V1" and "V2", used by C8's counterexample. -/
def dbDos : DB :=
  (registrar (registrar emptyDB "Ana" "V1" "1990-05-20").2 "Bea" "V2" "1991-06-21").2

/-- A store holding exactly 20 appointments, all scheduled later than
2024-01-05, used by C10 (a successful scheduling that is trimmed away). -/
def dbVeinte : DB :=
  { pacientes := [⟨1, "Ana", "V1", ⟨1990, 5, 20⟩⟩],
    citas := (List.range 20).map (fun i => ⟨i + 1, ⟨2024, 1, 10 + i, 9, 0⟩, "Chequeo", "V1"⟩),
    nextPacienteId := 2, nextCitaId := 21 }

example : scnRun.2 = true := by decide
example : scnRun.1.citas.length = 20 := by decide
example : scnRun.1.citas.map (fun c => c.fecha_cita) =
    (List.range 20).map (fun i => ⟨2024, 1, 6 + i, 9, 0⟩) := by decide
example : (modificarPaciente dbRen "V1" "Ana" "V2" "1990-05-20").1 = none := by decide
example : fkOk (modificarPaciente dbRen "V1" "Ana" "V2" "1990-05-20").2 = false := by decide
example : (agendarCita dbVeinte "V1" "2024-01-05T08:00" "Urgencia").1 = none := by decide
example : (agendarCita dbVeinte "V1" "2024-01-05T08:00" "Urgencia").2.1 = 1 := by decide
example : (agendarCita dbVeinte "V1" "2024-01-05T08:00" "Urgencia").2.2.citas =
    dbVeinte.citas := by decide

example : parseDate "1990-05-20".data = some ⟨1990, 5, 20⟩ := by decide
example : parseDate "1990-5-2".data = some ⟨1990, 5, 2⟩ := by decide
example : parseDate "1990-13-20".data = none := by decide
example : parseDate "1990-02-29".data = none := by decide
example : parseDate "1992-02-29".data = some ⟨1992, 2, 29⟩ := by decide
example : parseDate "0000-05-20".data = none := by decide
example : parseDate "not-a-date".data = none := by decide
example : parseDateTime "2024-01-10T09:00".data = some ⟨2024, 1, 10, 9, 0⟩ := by decide
example : parseDateTime "2024-01-10T24:00".data = none := by decide
example : parseDateTime "2024-01-10 09:00".data = none := by decide

lemma isSome_head?_filter {α : Type} (p : α → Bool) (l : List α) :
    (l.filter p).head?.isSome = l.any p := by
  rw [List.filter_head?]
  apply Bool.eq_iff_iff.mpr
  simp

lemma head?_filter_eq_some {α : Type} {p : α → Bool} {l : List α} {a : α}
    (h : (l.filter p).head? = some a) : a ∈ l ∧ p a := by
  rw [List.filter_head?] at h
  exact ⟨List.mem_of_find?_eq_some h, List.find?_some h⟩

lemma getPacienteByCedula_isSome (db : DB) (ced : String) :
    (getPacienteByCedula db ced).isSome = db.pacientes.any (fun p => p.cedula == ced) :=
  isSome_head?_filter _ _

lemma getPacienteByCedula_some {db : DB} {ced : String} {p : Paciente}
    (h : getPacienteByCedula db ced = some p) : p ∈ db.pacientes ∧ p.cedula = ced := by
  have hx := head?_filter_eq_some h
  exact ⟨hx.1, by simpa using hx.2⟩

lemma getPacienteByCedula_eq_none {db : DB} {ced : String}
    (h : db.pacientes.all (fun p => !(p.cedula == ced)) = true) :
    getPacienteByCedula db ced = none := by
  unfold getPacienteByCedula
  rw [List.head?_eq_none_iff, List.filter_eq_nil_iff]
  intro a ha
  simpa using List.all_eq_true.mp h a ha

lemma sortAsc_perm (l : List Cita) : (sortAsc l).Perm l := List.perm_insertionSort _ l

lemma sortAsc_length (l : List Cita) : (sortAsc l).length = l.length :=
  (sortAsc_perm l).length_eq

lemma sortAsc_sorted (l : List Cita) : List.Sorted citaLe (sortAsc l) :=
  List.sorted_insertionSort _ l

/-- C6: when at most 20 appointments are stored, the retention step deletes
nothing and leaves the store unchanged. -/
theorem enforceLimit_noop_le_20 (db : DB) (h : db.citas.length ≤ 20) :
    enforceLimit db = (db, 0) := by
  simp only [enforceLimit, sortAsc_length]
  rw [if_neg (by omega)]

/-- C6 witness at the empty store. -/
theorem enforceLimit_noop_le_20_witness : enforceLimit emptyDB = (emptyDB, 0) :=
  enforceLimit_noop_le_20 emptyDB (by decide)

/-- C4: registering with a cédula already in use and a well-formed birth date
fails with DuplicateIdentifier and leaves the store unchanged (no row added,
count unchanged). -/
theorem registrar_duplicate_unchanged (db : DB) (nombre ced f : String)
    (hf : (parseDate f.data).isSome = true)
    (hdup : db.pacientes.any (fun p => p.cedula == ced) = true) :
    registrar db nombre ced f = (some AppError.duplicateIdentifier, db) := by
  unfold registrar
  cases hp : parseDate f.data with
  | none => rw [hp] at hf; simp at hf
  | some fn =>
    cases hg : getPacienteByCedula db ced with
    | none =>
      rw [← getPacienteByCedula_isSome, hg] at hdup
      simp at hdup
    | some q => rfl

/-- C4 witness: re-registering "V123" over `dbAna` fails and changes nothing. -/
theorem registrar_duplicate_unchanged_witness :
    registrar dbAna "Bob" "V123" "1991-06-21" = (some AppError.duplicateIdentifier, dbAna) :=
  registrar_duplicate_unchanged dbAna "Bob" "V123" "1991-06-21" (by decide) (by decide)

/-- C7: scheduling for a cédula held by no patient, with a well-formed
datetime, fails with PatientNotFound and leaves the store unchanged. -/
theorem agendar_patientNotFound_unchanged (db : DB) (ced f motivo : String)
    (hf : (parseDateTime f.data).isSome = true)
    (hno : db.pacientes.all (fun p => !(p.cedula == ced)) = true) :
    agendarCita db ced f motivo = (some AppError.patientNotFound, 0, db) := by
  unfold agendarCita
  cases hp : parseDateTime f.data with
  | none => rw [hp] at hf; simp at hf
  | some fc => rw [getPacienteByCedula_eq_none hno]

/-- C7 witness: scheduling for the unknown cédula "V999" fails. -/
theorem agendar_patientNotFound_unchanged_witness :
    agendarCita dbAna "V999" "2024-01-10T09:00" "Control" =
      (some AppError.patientNotFound, 0, dbAna) :=
  agendar_patientNotFound_unchanged dbAna "V999" "2024-01-10T09:00" "Control"
    (by decide) (by decide)

/-- C5 counterexample: with "V123" already registered and a malformed birth
date, `registrar` reports InvalidDateFormat, not DuplicateIdentifier: the
format check runs before the uniqueness check, contrary to the claim. -/
theorem registrar_format_before_uniqueness_cex :
    dbAna.pacientes.any (fun p => p.cedula == "V123") = true ∧
    parseDate "nota-fecha".data = none ∧
    registrar dbAna "Bob" "V123" "nota-fecha" = (some AppError.invalidDateFormat, dbAna) ∧
    (registrar dbAna "Bob" "V123" "nota-fecha").1 ≠ some AppError.duplicateIdentifier := by
  decide

/-- C5 amended: the register operation validates the birth-date format before
cédula uniqueness; for every input whose identifier duplicates an existing
patient and whose birth-date text is malformed, the failure is
InvalidDateFormat and the store is unchanged. -/
theorem registrar_malformed_invalidDateFormat (db : DB) (nombre ced f : String)
    (hdup : db.pacientes.any (fun p => p.cedula == ced) = true)
    (hf : parseDate f.data = none) :
    registrar db nombre ced f = (some AppError.invalidDateFormat, db) := by
  unfold registrar
  rw [hf]

/-- C5 amended witness at a concrete duplicate registration. -/
theorem registrar_malformed_invalidDateFormat_witness :
    registrar dbAna "Bob" "V123" "20-05-1990x" = (some AppError.invalidDateFormat, dbAna) :=
  registrar_malformed_invalidDateFormat dbAna "Bob" "V123" "20-05-1990x"
    (by decide) (by decide)

/-- C8 counterexample: with two patients "V1" and "V2" stored, modifying "V1"
to take cédula "V2" while supplying a malformed birth-date text fails with
InvalidDateFormat, not DuplicateIdentifier, so the claim as stated (for every
birth-date text) is false. -/
theorem modificar_duplicate_cex :
    (dbDos.pacientes.any (fun p => p.cedula == "V1")) = true ∧
    (dbDos.pacientes.any (fun p => p.cedula == "V2")) = true ∧
    (modificarPaciente dbDos "V1" "Ana" "V2" "mala-fecha").1 =
      some AppError.invalidDateFormat ∧
    (modificarPaciente dbDos "V1" "Ana" "V2" "mala-fecha").1 ≠
      some AppError.duplicateIdentifier := by
  decide

/-- C8 amended: with a well-formed birth-date text, changing a patient's
cédula to one already held by a different patient fails with
DuplicateIdentifier and performs no update at all. -/
theorem modificar_duplicate_unchanged (db : DB) (pa pb : Paciente) (nombre f : String)
    (ha : pa ∈ db.pacientes) (hb : pb ∈ db.pacientes) (hne : pa.cedula ≠ pb.cedula)
    (hf : (parseDate f.data).isSome = true) :
    modificarPaciente db pa.cedula nombre pb.cedula f =
      (some AppError.duplicateIdentifier, db) := by
  obtain ⟨q, hg⟩ : ∃ q, getPacienteByCedula db pa.cedula = some q := by
    rw [← Option.isSome_iff_exists, getPacienteByCedula_isSome]
    exact List.any_eq_true.mpr ⟨pa, ha, by simp⟩
  obtain ⟨fn, hp⟩ := Option.isSome_iff_exists.mp hf
  have hcond : pb.cedula ≠ pa.cedula ∧ (getPacienteByCedula db pb.cedula).isSome = true := by
    refine ⟨fun h => hne h.symm, ?_⟩
    rw [getPacienteByCedula_isSome]
    exact List.any_eq_true.mpr ⟨pb, hb, by simp⟩
  unfold modificarPaciente
  simp only [hg, hp]
  rw [if_pos hcond]

/-- C8 amended witness on the two-patient store. -/
theorem modificar_duplicate_unchanged_witness :
    modificarPaciente dbDos "V1" "Ana" "V2" "1990-05-20" =
      (some AppError.duplicateIdentifier, dbDos) :=
  modificar_duplicate_unchanged dbDos ⟨1, "Ana", "V1", ⟨1990, 5, 20⟩⟩
    ⟨2, "Bea", "V2", ⟨1991, 6, 21⟩⟩ "Ana" "1990-05-20"
    (by decide) (by decide) (by decide) (by decide)

/-- C2 counterexample: the store `dbRen` satisfies the foreign-key invariant;
renaming its only patient's cédula from "V1" to "V2" succeeds, but the stored
appointment still references "V1", which no patient holds any more. -/
theorem modificar_rename_orphans_cex :
    fkOk dbRen = true ∧
    (modificarPaciente dbRen "V1" "Ana" "V2" "1990-05-20").1 = none ∧
    fkOk (modificarPaciente dbRen "V1" "Ana" "V2" "1990-05-20").2 = false ∧
    (modificarPaciente dbRen "V1" "Ana" "V2" "1990-05-20").2.citas.map
      (fun c => c.paciente_cedula) = ["V1"] ∧
    (modificarPaciente dbRen "V1" "Ana" "V2" "1990-05-20").2.pacientes.map
      (fun p => p.cedula) = ["V2"] := by
  decide

/-- C3: deleting an existing patient removes exactly that patient and exactly
the appointments referencing its cédula, nothing else; the model performs both
removals in the single store update of the handler, so no intermediate state
with the patient gone but its appointments present exists. -/
theorem eliminar_cascades_exactly (db : DB) (ced : String) (p : Paciente)
    (hids : (db.pacientes.map (fun q => q.id)).Nodup)
    (hceds : (db.pacientes.map (fun q => q.cedula)).Nodup)
    (hp : getPacienteByCedula db ced = some p) :
    (eliminarPaciente db ced).1 = none ∧
    p.cedula = ced ∧ p ∈ db.pacientes ∧
    p ∉ (eliminarPaciente db ced).2.pacientes ∧
    (∀ q ∈ db.pacientes, q.cedula ≠ ced → q ∈ (eliminarPaciente db ced).2.pacientes) ∧
    (∀ q ∈ (eliminarPaciente db ced).2.pacientes, q ∈ db.pacientes ∧ q.cedula ≠ ced) ∧
    (∀ c ∈ db.citas, c.paciente_cedula ≠ ced → c ∈ (eliminarPaciente db ced).2.citas) ∧
    (∀ c ∈ (eliminarPaciente db ced).2.citas, c ∈ db.citas ∧ c.paciente_cedula ≠ ced) := by
  obtain ⟨hpmem, hpced⟩ := getPacienteByCedula_some hp
  have hres : eliminarPaciente db ced =
      (none, { db with
        pacientes := db.pacientes.filter (fun q => !(q.id == p.id)),
        citas := db.citas.filter (fun c => !(c.paciente_cedula == p.cedula)) }) := by
    unfold eliminarPaciente
    rw [hp]
  rw [hres]
  refine ⟨rfl, hpced, hpmem, ?_, ?_, ?_, ?_, ?_⟩
  · intro hmem
    have hx := (List.mem_filter.mp hmem).2
    simp at hx
  · intro q hq hqced
    refine List.mem_filter.mpr ⟨hq, ?_⟩
    simp only [Bool.not_eq_eq_eq_not, Bool.not_true, beq_eq_false_iff_ne, ne_eq]
    intro hid
    exact hqced ((List.inj_on_of_nodup_map hids hq hpmem hid) ▸ hpced)
  · intro q hq
    obtain ⟨hq1, hq2⟩ := List.mem_filter.mp hq
    refine ⟨hq1, ?_⟩
    intro hc
    have hqp : q = p := List.inj_on_of_nodup_map hceds hq1 hpmem (by rw [hc, hpced])
    rw [hqp] at hq2
    simp at hq2
  · intro c hc hcced
    refine List.mem_filter.mpr ⟨hc, ?_⟩
    simp only [Bool.not_eq_eq_eq_not, Bool.not_true, beq_eq_false_iff_ne, ne_eq]
    intro hcp
    exact hcced (hcp.trans hpced)
  · intro c hc
    obtain ⟨hc1, hc2⟩ := List.mem_filter.mp hc
    refine ⟨hc1, ?_⟩
    simp only [Bool.not_eq_eq_eq_not, Bool.not_true, beq_eq_false_iff_ne, ne_eq] at hc2
    intro hcc
    exact hc2 (hcc.trans hpced.symm)

/-- C3 witness: deleting "V1" from the one-patient-one-appointment store. -/
theorem eliminar_cascades_exactly_witness :
    (eliminarPaciente dbRen "V1").1 = none ∧
    (⟨1, "Ana", "V1", ⟨1990, 5, 20⟩⟩ : Paciente).cedula = "V1" :=
  ⟨(eliminar_cascades_exactly dbRen "V1" ⟨1, "Ana", "V1", ⟨1990, 5, 20⟩⟩
      (by decide) (by decide) (by decide)).1, by decide⟩

lemma enforceLimit_pacientes (db : DB) : (enforceLimit db).1.pacientes = db.pacientes := by
  simp only [enforceLimit]
  split <;> rfl

lemma enforceLimit_citas_subset {db : DB} {c : Cita}
    (h : c ∈ (enforceLimit db).1.citas) : c ∈ db.citas := by
  revert h
  simp only [enforceLimit]
  split
  · exact fun h => (List.mem_filter.mp h).1
  · exact fun h => h

/-- C2 amended: the foreign-key invariant (every appointment references an
existing patient) is preserved by registration, by scheduling and by patient
deletion; but the modify operation never touches the appointments table, so a
cédula rename does not follow into `Cita.paciente_cedula` and can leave
appointments referencing an identifier that no patient holds (see the
counterexample). -/
theorem fk_preserved_except_rename :
    (∀ db nombre ced f, fkOk db = true → fkOk (registrar db nombre ced f).2 = true) ∧
    (∀ db ced f motivo, fkOk db = true → fkOk (agendarCita db ced f motivo).2.2 = true) ∧
    (∀ db ced, fkOk db = true → (db.pacientes.map (fun q => q.id)).Nodup →
      fkOk (eliminarPaciente db ced).2 = true) ∧
    (∀ db ced nombre nuevaCed f,
      (modificarPaciente db ced nombre nuevaCed f).2.citas = db.citas) := by
  refine ⟨?_, ?_, ?_, ?_⟩
  · intro db nombre ced f h
    unfold registrar
    cases hp : parseDate f.data with
    | none => exact h
    | some fn =>
      cases hg : getPacienteByCedula db ced with
      | some q => exact h
      | none =>
        unfold fkOk at h ⊢
        rw [List.all_eq_true] at h ⊢
        intro c hc
        have hx := h c hc
        simp only [List.any_append, List.any_cons, List.any_nil, Bool.or_false] at hx ⊢
        rw [hx]
        simp
  · intro db ced f motivo h
    unfold agendarCita
    cases hp : parseDateTime f.data with
    | none => exact h
    | some fc =>
      cases hg : getPacienteByCedula db ced with
      | none => exact h
      | some q =>
        have hq := getPacienteByCedula_some hg
        show fkOk (enforceLimit (insertCitaDB db ced fc motivo)).1 = true
        unfold fkOk
        rw [List.all_eq_true]
        intro c hc
        rw [enforceLimit_pacientes]
        have hc2 : c ∈ (insertCitaDB db ced fc motivo).citas := enforceLimit_citas_subset hc
        have hc3 := List.mem_append.mp hc2
        show db.pacientes.any (fun p => p.cedula == c.paciente_cedula) = true
        cases hc3 with
        | inl hold => exact List.all_eq_true.mp h c hold
        | inr hnew =>
          have hcn : c = ⟨db.nextCitaId, fc, motivo, ced⟩ := by simpa using hnew
          rw [hcn]
          exact List.any_eq_true.mpr ⟨q, hq.1, by simp [hq.2]⟩
  · intro db ced h hnod
    unfold eliminarPaciente
    cases hg : getPacienteByCedula db ced with
    | none => exact h
    | some p =>
      have hpg := getPacienteByCedula_some hg
      unfold fkOk
      rw [List.all_eq_true]
      intro c hc
      obtain ⟨hc1, hc2⟩ := List.mem_filter.mp hc
      obtain ⟨q, hqmem, hqced⟩ := List.any_eq_true.mp (List.all_eq_true.mp h c hc1)
      refine List.any_eq_true.mpr ⟨q, List.mem_filter.mpr ⟨hqmem, ?_⟩, hqced⟩
      simp only [Bool.not_eq_eq_eq_not, Bool.not_true, beq_eq_false_iff_ne, ne_eq]
      intro hid
      have hqp : q = p := List.inj_on_of_nodup_map hnod hqmem hpg.1 hid
      rw [hqp] at hqced
      simp only [Bool.not_eq_eq_eq_not, Bool.not_true, beq_eq_false_iff_ne, ne_eq] at hc2
      exact hc2 ((eq_of_beq hqced).symm)
  · intro db ced nombre nuevaCed f
    unfold modificarPaciente
    cases getPacienteByCedula db ced with
    | none => rfl
    | some p =>
      cases parseDate f.data with
      | none => rfl
      | some fn =>
        dsimp only
        split <;> rfl

/-- C2 amended witness: deleting "V1" from `dbRen` keeps the invariant. -/
theorem fk_preserved_except_rename_witness :
    fkOk (eliminarPaciente dbRen "V1").2 = true :=
  fk_preserved_except_rename.2.2.1 dbRen "V1" (by decide) (by decide)

/-- C10: a successful scheduling whose new appointment is immediately trimmed
away: the 20 stored appointments are all strictly later than the new one, the
call succeeds reporting one trimmed record, and the resulting store is exactly
the 20 old appointments - the newly created one (id 21) is gone. -/
theorem agendar_success_new_cita_trimmed :
    dbVeinte.citas.length = 20 ∧
    (dbVeinte.citas.all (fun c =>
      decide ((⟨2024, 1, 5, 8, 0⟩ : DateTimeT).key < c.fecha_cita.key))) = true ∧
    (agendarCita dbVeinte "V1" "2024-01-05T08:00" "Urgencia").1 = none ∧
    (agendarCita dbVeinte "V1" "2024-01-05T08:00" "Urgencia").2.1 = 1 ∧
    (agendarCita dbVeinte "V1" "2024-01-05T08:00" "Urgencia").2.2.citas =
      dbVeinte.citas ∧
    ((agendarCita dbVeinte "V1" "2024-01-05T08:00" "Urgencia").2.2.citas.all
      (fun c => !(c.id == 21))) = true := by
  decide

lemma isDig_digitChar (k : Nat) (h : k ≤ 9) : isDig (digitChar k) = true := by
  interval_cases k <;> decide

lemma digitVal_digitChar (k : Nat) (h : k ≤ 9) : digitVal (digitChar k) = k := by
  interval_cases k <;> decide

lemma daysInMonth_le_31 (y m : Nat) : daysInMonth y m ≤ 31 := by
  unfold daysInMonth
  split
  · split <;> omega
  · split <;> omega

lemma parse2or1_two (lo hi : Nat) (c1 c2 : Char) (rest : List Char)
    (h1 : isDig c1 = true) (h2 : isDig c2 = true)
    (hlo : lo ≤ 10 * digitVal c1 + digitVal c2)
    (hhi : 10 * digitVal c1 + digitVal c2 ≤ hi) :
    parse2or1 lo hi (c1 :: c2 :: rest) = some (10 * digitVal c1 + digitVal c2, rest) := by
  simp only [parse2or1]
  rw [if_pos ⟨h1, h2⟩, if_pos ⟨hlo, hhi⟩]

lemma parseDate_formatDate (y m d : Nat) (hy1 : 1 ≤ y) (hy2 : y ≤ 9999)
    (hm1 : 1 ≤ m) (hm2 : m ≤ 12) (hd1 : 1 ≤ d) (hd2 : d ≤ daysInMonth y m) :
    parseDate (formatDate y m d).data = some ⟨y, m, d⟩ := by
  have hd31 : d ≤ 31 := le_trans hd2 (daysInMonth_le_31 y m)
  have i1 := isDig_digitChar (y / 1000) (by omega)
  have i2 := isDig_digitChar (y / 100 % 10) (by omega)
  have i3 := isDig_digitChar (y / 10 % 10) (by omega)
  have i4 := isDig_digitChar (y % 10) (by omega)
  have i5 := isDig_digitChar (m / 10) (by omega)
  have i6 := isDig_digitChar (m % 10) (by omega)
  have i7 := isDig_digitChar (d / 10) (by omega)
  have i8 := isDig_digitChar (d % 10) (by omega)
  have e1 := digitVal_digitChar (y / 1000) (by omega)
  have e2 := digitVal_digitChar (y / 100 % 10) (by omega)
  have e3 := digitVal_digitChar (y / 10 % 10) (by omega)
  have e4 := digitVal_digitChar (y % 10) (by omega)
  have e5 := digitVal_digitChar (m / 10) (by omega)
  have e6 := digitVal_digitChar (m % 10) (by omega)
  have e7 := digitVal_digitChar (d / 10) (by omega)
  have e8 := digitVal_digitChar (d % 10) (by omega)
  have hyv : 1000 * (y / 1000) + 100 * (y / 100 % 10) + 10 * (y / 10 % 10) + y % 10 = y := by
    omega
  have hmv : 10 * (m / 10) + m % 10 = m := by omega
  have hdv : 10 * (d / 10) + d % 10 = d := by omega
  show parseDate
      [digitChar (y / 1000), digitChar (y / 100 % 10), digitChar (y / 10 % 10),
       digitChar (y % 10), '-', digitChar (m / 10), digitChar (m % 10), '-',
       digitChar (d / 10), digitChar (d % 10)] = some ⟨y, m, d⟩
  simp only [parseDate]
  rw [if_pos ⟨i1, i2, i3, i4, trivial⟩]
  rw [parse2or1_two 1 12 _ _ _ i5 i6 (by rw [e5, e6]; omega) (by rw [e5, e6]; omega)]
  dsimp only
  rw [if_pos rfl]
  rw [parse2or1_two 1 31 _ _ _ i7 i8 (by rw [e7, e8]; omega) (by rw [e7, e8]; omega)]
  dsimp only
  rw [e1, e2, e3, e4, e5, e6, e7, e8, hyv, hmv, hdv]
  rw [if_pos ⟨hy1, hd2⟩]

/-- C9: the birth date round-trips exactly: for every calendar-valid date, the
text `YYYY-MM-DD` parses to exactly that date, registering succeeds on a store
where the cédula is free, and reading the patient back by cédula returns the
stored date unchanged (no time component, no drift). -/
theorem registrar_birthDate_roundTrip (db : DB) (nombre ced : String) (y m d : Nat)
    (hy1 : 1 ≤ y) (hy2 : y ≤ 9999) (hm1 : 1 ≤ m) (hm2 : m ≤ 12)
    (hd1 : 1 ≤ d) (hd2 : d ≤ daysInMonth y m)
    (hfree : db.pacientes.all (fun p => !(p.cedula == ced)) = true) :
    (registrar db nombre ced (formatDate y m d)).1 = none ∧
    getPacienteByCedula (registrar db nombre ced (formatDate y m d)).2 ced =
      some { id := db.nextPacienteId, nombre := nombre, cedula := ced,
             fecha_nacimiento := ⟨y, m, d⟩ } := by
  have hp : parseDate (formatDate y m d).data = some ⟨y, m, d⟩ :=
    parseDate_formatDate y m d hy1 hy2 hm1 hm2 hd1 hd2
  have hg : getPacienteByCedula db ced = none := getPacienteByCedula_eq_none hfree
  have hres : registrar db nombre ced (formatDate y m d) =
      (none, { db with
        pacientes := db.pacientes ++
          [{ id := db.nextPacienteId, nombre := nombre, cedula := ced,
             fecha_nacimiento := ⟨y, m, d⟩ }],
        nextPacienteId := db.nextPacienteId + 1 }) := by
    unfold registrar
    rw [hp, hg]
  rw [hres]
  refine ⟨rfl, ?_⟩
  unfold getPacienteByCedula
  have hnil : db.pacientes.filter (fun p => p.cedula == ced) = [] := by
    rw [List.filter_eq_nil_iff]
    intro a ha
    simpa using List.all_eq_true.mp hfree a ha
  rw [List.filter_append, hnil]
  simp

/-- C9 witness: the spec's own instance, birth date 1990-05-20. -/
theorem registrar_birthDate_roundTrip_witness :
    (registrar emptyDB "Ana" "V123" (formatDate 1990 5 20)).1 = none ∧
    getPacienteByCedula (registrar emptyDB "Ana" "V123" (formatDate 1990 5 20)).2 "V123" =
      some { id := 1, nombre := "Ana", cedula := "V123", fecha_nacimiento := ⟨1990, 5, 20⟩ } :=
  registrar_birthDate_roundTrip emptyDB "Ana" "V123" 1990 5 20
    (by decide) (by decide) (by decide) (by decide) (by decide) (by decide) (by decide)

lemma countP_not_add {α : Type} (p : α → Bool) (l : List α) :
    l.countP (fun a => !(p a)) + l.countP p = l.length := by
  induction l with
  | nil => rfl
  | cons a l ih =>
    simp only [List.countP_cons, List.length_cons]
    by_cases h : p a <;> simp [h] <;> omega

lemma enforceLimit_gt_20 (db : DB) (hids : (db.citas.map (fun c => c.id)).Nodup)
    (hlen : 20 < db.citas.length) :
    (enforceLimit db).2 = db.citas.length - 20 ∧
    (enforceLimit db).1.citas.length = 20 ∧
    (∀ k ∈ (enforceLimit db).1.citas, k ∈ db.citas) ∧
    (∀ c ∈ trimmedCitas db, c ∈ db.citas ∧ c ∉ (enforceLimit db).1.citas) ∧
    (∀ c ∈ db.citas, c ∉ (enforceLimit db).1.citas → c ∈ trimmedCitas db) ∧
    (∀ c ∈ trimmedCitas db, ∀ k ∈ (enforceLimit db).1.citas,
      c.fecha_cita.key ≤ k.fecha_cita.key) := by
  have hperm : (sortAsc db.citas).Perm db.citas := sortAsc_perm db.citas
  have hslen : (sortAsc db.citas).length = db.citas.length := hperm.length_eq
  have hres : enforceLimit db =
      ({ db with citas := db.citas.filter (fun c => !((trimmedCitas db).any (fun t => t.id == c.id))) },
        db.citas.length - 20) := by
    simp only [enforceLimit, trimmedCitas, hslen]
    rw [if_pos (by omega)]
  have hnodupS : ((sortAsc db.citas).map (fun c => c.id)).Nodup :=
    ((hperm.map (fun c => c.id)).nodup_iff).mpr hids
  have hsplit := List.take_append_drop (db.citas.length - 20) (sortAsc db.citas)
  have htake_all : ∀ c ∈ trimmedCitas db,
      ((trimmedCitas db).any (fun t => t.id == c.id)) = true := by
    intro c hc
    exact List.any_eq_true.mpr ⟨c, hc, by simp⟩
  have hdrop_none : ∀ c ∈ (sortAsc db.citas).drop (db.citas.length - 20),
      ((trimmedCitas db).any (fun t => t.id == c.id)) = false := by
    intro c hc
    rw [Bool.eq_false_iff]
    intro hany
    obtain ⟨t, ht, hteq⟩ := List.any_eq_true.mp hany
    have hid : t.id = c.id := eq_of_beq hteq
    have hmap : ((sortAsc db.citas).map (fun c => c.id)) =
        ((trimmedCitas db).map (fun c => c.id)) ++
        (((sortAsc db.citas).drop (db.citas.length - 20)).map (fun c => c.id)) := by
      rw [← List.map_append, trimmedCitas, hsplit]
    rw [hmap] at hnodupS
    have hdisj := List.disjoint_of_nodup_append hnodupS
    exact hdisj (List.mem_map_of_mem _ ht) (hid ▸ List.mem_map_of_mem _ hc)
  have hlen_take : (trimmedCitas db).length = db.citas.length - 20 := by
    rw [trimmedCitas, List.length_take, hslen]
    omega
  have hcountQ : db.citas.countP
      (fun c => (trimmedCitas db).any (fun t => t.id == c.id)) =
      db.citas.length - 20 := by
    have h1 : (sortAsc db.citas).countP
        (fun c => (trimmedCitas db).any (fun t => t.id == c.id)) =
        db.citas.countP (fun c => (trimmedCitas db).any (fun t => t.id == c.id)) :=
      hperm.countP_eq _
    have h2 : (sortAsc db.citas).countP
        (fun c => (trimmedCitas db).any (fun t => t.id == c.id)) =
        (trimmedCitas db).countP (fun c => (trimmedCitas db).any (fun t => t.id == c.id)) +
        ((sortAsc db.citas).drop (db.citas.length - 20)).countP
          (fun c => (trimmedCitas db).any (fun t => t.id == c.id)) := by
      conv_lhs => rw [← hsplit]
      rw [List.countP_append, trimmedCitas]
    have h3 : (trimmedCitas db).countP
        (fun c => (trimmedCitas db).any (fun t => t.id == c.id)) =
        (trimmedCitas db).length :=
      List.countP_eq_length.mpr htake_all
    have h4 : ((sortAsc db.citas).drop (db.citas.length - 20)).countP
        (fun c => (trimmedCitas db).any (fun t => t.id == c.id)) = 0 :=
      List.countP_eq_zero.mpr (fun c hc => by rw [hdrop_none c hc]; exact Bool.false_ne_true)
    omega
  have hremlen : (db.citas.filter
      (fun c => !((trimmedCitas db).any (fun t => t.id == c.id)))).length = 20 := by
    have hsum := countP_not_add
      (fun c => (trimmedCitas db).any (fun t => t.id == c.id)) db.citas
    rw [← List.countP_eq_length_filter]
    omega
  rw [hres]
  refine ⟨rfl, hremlen, ?_, ?_, ?_, ?_⟩
  · intro k hk
    exact (List.mem_filter.mp hk).1
  · intro c hc
    refine ⟨hperm.mem_iff.mp (List.mem_of_mem_take hc), ?_⟩
    intro hmem
    have hx := (List.mem_filter.mp hmem).2
    rw [htake_all c hc] at hx
    simp at hx
  · intro c hc hnot
    by_cases hq : ((trimmedCitas db).any (fun t => t.id == c.id)) = true
    · obtain ⟨t, ht, hteq⟩ := List.any_eq_true.mp hq
      have htc : t = c := List.inj_on_of_nodup_map hnodupS
        (List.mem_of_mem_take ht) (hperm.mem_iff.mpr hc) (eq_of_beq hteq)
      exact htc ▸ ht
    · exfalso
      apply hnot
      refine List.mem_filter.mpr ⟨hc, ?_⟩
      rw [Bool.not_eq_true] at hq
      rw [hq]
      rfl
  · intro c hc k hk
    obtain ⟨hk1, hk2⟩ := List.mem_filter.mp hk
    have hks : k ∈ sortAsc db.citas := hperm.mem_iff.mpr hk1
    have hknot : k ∉ trimmedCitas db := by
      intro hkt
      rw [htake_all k hkt] at hk2
      simp at hk2
    have hkdrop : k ∈ (sortAsc db.citas).drop (db.citas.length - 20) := by
      rw [← hsplit] at hks
      cases List.mem_append.mp hks with
      | inl hx => exact absurd hx hknot
      | inr hx => exact hx
    have hsorted := sortAsc_sorted db.citas
    rw [← hsplit] at hsorted
    exact (List.pairwise_append.mp hsorted).2.2 c hc k hkdrop

/-- C1: after every successful scheduling the retention step runs on the
post-insert store; whenever more than 20 appointments are stored it deletes
exactly count − 20 of them, namely the earliest by `scheduled_at` in ascending
order — every deleted appointment is no later than every kept one — leaving
exactly 20, regardless of insertion order; and in the concrete P5 scenario
(25 appointments on consecutive days) exactly 20 remain, the 5 removed being
the 5 earliest. -/
theorem retention_trims_oldest :
    (∀ db ced f motivo fc, parseDateTime f.data = some fc →
      (getPacienteByCedula db ced).isSome = true →
      agendarCita db ced f motivo =
        (none, (enforceLimit (insertCitaDB db ced fc motivo)).2,
          (enforceLimit (insertCitaDB db ced fc motivo)).1)) ∧
    (∀ db : DB, (db.citas.map (fun c => c.id)).Nodup → 20 < db.citas.length →
      (enforceLimit db).2 = db.citas.length - 20 ∧
      (enforceLimit db).1.citas.length = 20 ∧
      (∀ k ∈ (enforceLimit db).1.citas, k ∈ db.citas) ∧
      (∀ c ∈ trimmedCitas db, c ∈ db.citas ∧ c ∉ (enforceLimit db).1.citas) ∧
      (∀ c ∈ db.citas, c ∉ (enforceLimit db).1.citas → c ∈ trimmedCitas db) ∧
      (∀ c ∈ trimmedCitas db, ∀ k ∈ (enforceLimit db).1.citas,
        c.fecha_cita.key ≤ k.fecha_cita.key)) ∧
    (scnRun.2 = true ∧ scnRun.1.citas.length = 20 ∧
      scnRun.1.citas.map (fun c => c.fecha_cita) =
        (List.range 20).map (fun i => ⟨2024, 1, 6 + i, 9, 0⟩)) := by
  refine ⟨?_, ?_, by decide, by decide, by decide⟩
  · intro db ced f motivo fc hp hl
    obtain ⟨q, hq⟩ := Option.isSome_iff_exists.mp hl
    unfold agendarCita
    rw [hp, hq]
  · intro db h1 h2
    exact enforceLimit_gt_20 db h1 h2

/-- C1 witness: a successful scheduling on the one-patient store equals
insert-then-trim. -/
theorem retention_trims_oldest_witness :
    agendarCita dbAna "V123" "2024-03-01T10:00" "Control" =
      (none, (enforceLimit (insertCitaDB dbAna "V123" ⟨2024, 3, 1, 10, 0⟩ "Control")).2,
        (enforceLimit (insertCitaDB dbAna "V123" ⟨2024, 3, 1, 10, 0⟩ "Control")).1) :=
  retention_trims_oldest.1 dbAna "V123" "2024-03-01T10:00" "Control" ⟨2024, 3, 1, 10, 0⟩
    (by decide) (by decide)

end Clinica
